import Mathlib

set_option maxHeartbeats 1000000

/- Shallow embedding of src/util/reply_hnt_web.py: a command-line utility that
locates a browser tab by title substring, switches to it, connects a debugging
session, optionally navigates the page to the most recent conversation fork via
an injected script, and focuses the reply textarea.  Python strings are modelled
as Lean strings (lists of characters); the string primitives used by the source
(str.lower, str.strip, JavaScript String.trim, substring search, Python repr)
are modelled for ASCII input, which covers every concrete value appearing in the
source and in the claims. -/

/-- Whitespace recognizer modelling the characters stripped by Python str.strip
and by the JavaScript String.trim calls in the source (space, tab, newline,
carriage return, vertical tab, form feed; ASCII model). -/
def isSpaceChar (c : Char) : Bool :=
  c.toNat = 32 || c.toNat = 9 || c.toNat = 10 || c.toNat = 13 || c.toNat = 11 || c.toNat = 12

/-- Strip whitespace from both ends of a character list. -/
def stripEnds (l : List Char) : List Char :=
  ((l.dropWhile isSpaceChar).reverse.dropWhile isSpaceChar).reverse

/-- Python str.strip on the CDP_PORT environment value (ASCII model). -/
def pyStrip (s : String) : String := String.mk (stripEnds s.data)

/-- JavaScript String.trim used by the fork-filtering script (ASCII model). -/
def jsTrim (s : String) : String := String.mk (stripEnds s.data)

/-- Lowercasing as used by str.lower in find_tab (ASCII model). -/
def lowerStr (s : String) : String := String.mk (s.data.map Char.toLower)

/-- Does the second list start with the first one?  Used to model Python's
substring operator. -/
def startsWithL : List Char → List Char → Bool
  | [], _ => true
  | _ :: _, [] => false
  | a :: as, b :: bs => a == b && startsWithL as bs

/-- Does the second list contain the first as a contiguous sublist?  This models
the Python expression needle in haystack on strings. -/
def containsL (needle : List Char) : List Char → Bool
  | [] => startsWithL needle []
  | c :: rest => startsWithL needle (c :: rest) || containsL needle rest

theorem startsWithL_iff (n : List Char) : ∀ (h : List Char),
    startsWithL n h = true ↔ ∃ post, h = n ++ post := by
  induction n with
  | nil => intro h; simp [startsWithL]
  | cons a as ih =>
    intro h
    cases h with
    | nil => simp [startsWithL]
    | cons b bs =>
      simp only [startsWithL, Bool.and_eq_true, beq_iff_eq, ih, List.cons_append,
        List.cons.injEq]
      constructor
      · rintro ⟨hab, post, hpost⟩
        exact ⟨post, hab.symm, hpost⟩
      · rintro ⟨post, hab, hpost⟩
        exact ⟨hab.symm, post, hpost⟩

theorem containsL_iff (n : List Char) : ∀ (h : List Char),
    containsL n h = true ↔ ∃ pre post, h = pre ++ n ++ post := by
  intro h
  induction h with
  | nil =>
    simp only [containsL, startsWithL_iff]
    constructor
    · rintro ⟨post, hp⟩
      exact ⟨[], post, by simpa using hp⟩
    · rintro ⟨pre, post, hp⟩
      have h2 : pre = [] ∧ n = [] ∧ post = [] := by simpa using hp.symm
      exact ⟨[], by simp [h2.2.1]⟩
  | cons c rest ih =>
    simp only [containsL, Bool.or_eq_true, startsWithL_iff, ih]
    constructor
    · rintro (⟨post, hp⟩ | ⟨pre, post, hp⟩)
      · exact ⟨[], post, by simpa using hp⟩
      · exact ⟨c :: pre, post, by simp [hp]⟩
    · rintro ⟨pre, post, hp⟩
      cases pre with
      | nil => exact Or.inl ⟨post, by simpa using hp⟩
      | cons p ps =>
        right
        refine ⟨ps, post, ?_⟩
        have := hp
        simp only [List.cons_append, List.cons.injEq] at this
        exact this.2

/-- Containment follows from an explicit decomposition. -/
theorem containsL_of_parts (n pre post h : List Char) (hh : h = pre ++ n ++ post) :
    containsL n h = true :=
  (containsL_iff n h).mpr ⟨pre, post, hh⟩

/-- String append acts as list append on the underlying character data. -/
theorem strDataAppend (a b : String) : (a ++ b).data = a.data ++ b.data := rfl

/-- Comma-space join used for the list of available tab titles in find_tab's
error message (models str.join with separator comma-space). -/
def commaJoin : List String → String
  | [] => ""
  | [s] => s
  | s :: rest => s ++ ", " ++ commaJoin rest

theorem commaJoin_mem (x : String) : ∀ (l : List String), x ∈ l →
    ∃ pre post, (commaJoin l).data = pre ++ x.data ++ post := by
  intro l
  induction l with
  | nil => intro hx; cases hx
  | cons s rest ih =>
    intro hx
    cases rest with
    | nil =>
      have hxs : x = s := by simpa using hx
      exact ⟨[], [], by simp [commaJoin, hxs]⟩
    | cons t ts =>
      rcases List.mem_cons.mp hx with hxs | hxr
      · refine ⟨[], (", " ++ commaJoin (t :: ts)).data, ?_⟩
        simp [commaJoin, hxs, strDataAppend]
      · rcases ih hxr with ⟨pre, post, hp⟩
        refine ⟨(s ++ ", ").data ++ pre, post, ?_⟩
        simp [commaJoin, strDataAppend, hp]

/-- Hexadecimal digit character, as produced by Python repr escapes. -/
def pyHexDigit (n : Nat) : Char := Char.ofNat (if n < 10 then 48 + n else 87 + n)

/-- Escape of one character inside a Python repr of a string delimited by the
quote character q (ASCII model of CPython's behavior). -/
def pyEscapeChar (q : Char) (c : Char) : List Char :=
  if c = Char.ofNat 92 then [Char.ofNat 92, Char.ofNat 92]
  else if c = q then [Char.ofNat 92, q]
  else if c = Char.ofNat 10 then [Char.ofNat 92, 'n']
  else if c = Char.ofNat 13 then [Char.ofNat 92, 'r']
  else if c = Char.ofNat 9 then [Char.ofNat 92, 't']
  else if c.toNat < 32 || c.toNat == 127 then
    [Char.ofNat 92, 'x', pyHexDigit (c.toNat / 16), pyHexDigit (c.toNat % 16)]
  else [c]

/-- Python repr of a string, as used by the f-string format spec r in find_tab's
error message (ASCII model): single quotes unless the string holds a single
quote and no double quote. -/
def pyRepr (s : String) : String :=
  let q := if s.data.any (fun c => c.toNat == 39) && !(s.data.any (fun c => c.toNat == 34)) then
    Char.ofNat 34 else Char.ofNat 39
  String.mk (q :: (s.data.map (pyEscapeChar q)).flatten ++ [q])

/-- Printable ASCII character other than the two quotes and the backslash: a
character that Python repr reproduces verbatim. -/
def plainChar (c : Char) : Bool :=
  decide (32 ≤ c.toNat) && decide (c.toNat ≤ 126) &&
    c.toNat != 39 && c.toNat != 34 && c.toNat != 92

theorem pyEscapeChar_plain (q c : Char) (hq : q = Char.ofNat 39 ∨ q = Char.ofNat 34)
    (hc : plainChar c = true) : pyEscapeChar q c = [c] := by
  simp only [plainChar, Bool.and_eq_true, bne_iff_ne, ne_eq, decide_eq_true_eq] at hc
  obtain ⟨⟨⟨⟨h32, h126⟩, h39⟩, h34⟩, h92⟩ := hc
  have hx : ∀ m : Nat, (Char.ofNat m).toNat = m → ¬ c.toNat = m → ¬ c = Char.ofNat m := by
    intro m hm hne heq
    apply hne
    rw [heq, hm]
  rw [pyEscapeChar, if_neg (hx 92 (by decide) h92)]
  have hcq : ¬ c = q := by
    rcases hq with h | h
    · rw [h]; exact hx 39 (by decide) h39
    · rw [h]; exact hx 34 (by decide) h34
  rw [if_neg hcq, if_neg (hx 10 (by decide) (by omega)), if_neg (hx 13 (by decide) (by omega)),
    if_neg (hx 9 (by decide) (by omega))]
  rw [if_neg (by simp only [Bool.or_eq_true, decide_eq_true_eq, beq_iff_eq]; omega)]

theorem joinEscapePlain : ∀ (l : List Char), (∀ c ∈ l, plainChar c = true) →
    (l.map (pyEscapeChar (Char.ofNat 39))).flatten = l := by
  intro l
  induction l with
  | nil => intro _; rfl
  | cons c rest ih =>
    intro h
    simp only [List.map_cons, List.flatten_cons]
    rw [pyEscapeChar_plain (Char.ofNat 39) c (Or.inl rfl) (h c (List.mem_cons_self c rest))]
    rw [ih (fun x hx => h x (List.mem_cons.mpr (Or.inr hx)))]
    rfl

theorem pyRepr_plain (s : String) (hs : ∀ c ∈ s.data, plainChar c = true) :
    (pyRepr s).data = Char.ofNat 39 :: s.data ++ [Char.ofNat 39] := by
  have hq : s.data.any (fun c => c.toNat == 39) = false := by
    rw [List.any_eq_false]
    intro c hc
    have h1 := hs c hc
    simp only [plainChar, Bool.and_eq_true, bne_iff_ne, ne_eq, decide_eq_true_eq] at h1
    simp only [beq_iff_eq]
    exact h1.1.1.2
  rw [pyRepr]
  simp only [hq, Bool.false_and, Bool.false_eq_true, if_false]
  rw [joinEscapePlain s.data hs]


/-- Browser tab as consumed by the program: the three JSON attributes read from
the cdp tabs list output.  A field is none when the attribute is missing or
null (Python dict.get returning None). -/
structure Tab where
  id : Option String
  title : Option String
  url : Option String
deriving DecidableEq

/-- Python truthiness on an optional string: None and the empty string are
falsy.  Models expressions of the form value or fallback. -/
def truthy : Option String → Option String
  | none => none
  | some s => if s = "" then none else some s

/-- Title shown in find_tab's error listing: the title attribute with the
untitled fallback under Python truthiness. -/
def displayTitle (t : Tab) : String :=
  match truthy t.title with
  | some s => s
  | none => "<untitled>"

/-- Case-insensitive substring test of find_tab: the lowercased key occurs in
the lowercased title, a missing or null title reading as the empty string. -/
def titleMatches (key : String) (t : Tab) : Bool :=
  containsL (lowerStr key).data (lowerStr (t.title.getD (""))).data

/-- Tab locator find_tab: first tab in list order whose lowercased title holds
the lowercased key; otherwise the SystemExit error message listing all
available titles. -/
def find_tab (tabs : List Tab) (key : String) : Except String Tab :=
  match tabs.find? (fun t => titleMatches key t) with
  | some t => Except.ok t
  | none => Except.error ("No tab title contains " ++ pyRepr key ++
      ". Available titles: " ++ commaJoin (tabs.map displayTitle))

/-- Grammar of the digit part of a Python integer literal as accepted by int():
one or more digits with single underscores allowed between digits. -/
def digitsRun : List Char → Bool
  | [] => false
  | [c] => c.isDigit
  | c :: d :: rest =>
    c.isDigit && (if d = '_' then digitsRun rest else digitsRun (d :: rest))

/-- Numeric value of a digit run, skipping underscores. -/
def digitsVal (l : List Char) : Nat :=
  l.foldl (fun acc c => if c.isDigit then acc * 10 + (c.toNat - 48) else acc) 0

/-- Python int() applied to a string (ASCII model): optional sign followed by
underscore-grouped digits; none models ValueError. -/
def pyInt (s : String) : Option Int :=
  match s.data with
  | [] => none
  | c :: rest =>
    if c = '+' then (if digitsRun rest then some (Int.ofNat (digitsVal rest)) else none)
    else if c = '-' then (if digitsRun rest then some (-Int.ofNat (digitsVal rest)) else none)
    else if digitsRun (c :: rest) then some (Int.ofNat (digitsVal (c :: rest))) else none

/-- Default DevTools port env_port_default: the CDP_PORT value stripped, then
its int() value when positive, else 9222.  The argument is the raw environment
value, none when the variable is unset. -/
def env_port_default (cdpPort : Option String) : Nat :=
  if pyStrip (cdpPort.getD ("")) ≠ "" then
    match pyInt (pyStrip (cdpPort.getD (""))) with
    | some v => if 0 < v then v.toNat else 9222
    | none => 9222
  else 9222

/-- Entry of the forks array as seen by the injected script: some s for a
string entry, none for an entry of any other type. -/
abbrev JsItem := Option String

/-- State of the global conversation object as read by the fork-navigation
script: the object is absent or falsy, or its forks attribute is not an array,
or it is an array of entries. -/
inductive ConvoState where
  | absent : ConvoState
  | forksNotArray : ConvoState
  | forksArr : List JsItem → ConvoState
deriving DecidableEq

/-- Result object built by the fork-navigation script (its JSON shape). -/
structure ForkResponse where
  action : String
  reason : String
  targetForkId : Option String
  currentConversationId : Option String
  error : Option String
deriving DecidableEq

/-- Outcome of one run of the fork-navigation script: the returned response
plus the pathname passed to location.assign when navigation was triggered. -/
structure ForkScriptOutcome where
  response : ForkResponse
  navigatedTo : Option String
deriving DecidableEq

/-- Filter applied to the forks array: keep the entries that are strings with
a non-empty trim. -/
def filteredForks (items : List JsItem) : List String :=
  items.filterMap (fun it =>
    match it with
    | some s => if jsTrim s ≠ "" then some s else none
    | none => none)

/-- First match of the regex for a path segment pair slash-c-slash-id: scan the
characters left to right, and at each literal slash-c-slash capture the maximal
non-empty run of non-slash characters. -/
def cMatch : List Char → Option (List Char)
  | [] => none
  | c :: rest =>
    if c = '/' ∧ rest.take 2 = ['c', '/'] ∧ (rest.drop 2).takeWhile (fun ch => ch != '/') ≠ []
    then some ((rest.drop 2).takeWhile (fun ch => ch != '/'))
    else cMatch rest

/-- JavaScript String.split on the slash separator, keeping empty segments. -/
def splitSlash : List Char → List (List Char)
  | [] => [[]]
  | c :: rest =>
    if c = '/' then [] :: splitSlash rest
    else
      match splitSlash rest with
      | [] => [[c]]
      | h :: t => (c :: h) :: t

/-- JavaScript Array.join on the slash separator. -/
def joinSlash : List (List Char) → List Char
  | [] => []
  | [s] => s
  | s :: rest => s ++ '/' :: joinSlash rest

/-- Index of the first segment equal to the single character c, or the length
of the list when absent, so that the index-plus-one bound check fails exactly
when JavaScript indexOf yields minus one. -/
def idxOfSeg : List (List Char) → Nat
  | [] => 0
  | h :: t => if h = ['c'] then 0 else idxOfSeg t + 1

/-- URL rewriting done by the navigation branch: replace the segment after the
first literal c segment by the target fork, else use the fresh two-segment
path naming the fork. -/
def replaceForkSegment (path latest : List Char) : List Char :=
  if idxOfSeg (splitSlash path) + 1 < (splitSlash path).length then
    joinSlash ((splitSlash path).set (idxOfSeg (splitSlash path) + 1) latest)
  else '/' :: 'c' :: '/' :: latest

/-- Last entry of the filtered forks list, the script expression indexing the
array at its length minus one (the empty-string default is never reached, the
navigating branch being guarded by a non-emptiness test). -/
def latestFork (items : List JsItem) : String := (filteredForks items).getLastD ("")

/-- Current conversation id extracted from the pathname by the regex match,
the empty string when there is no match (a non-string pathname reading as the
empty string). -/
def forkCurrent (pathname : Option String) : String :=
  String.mk ((cMatch (pathname.getD ("")).data).getD [])

/-- Initial response object of the fork-navigation script. -/
def forkBase : ForkResponse :=
  { action := "focus", reason := "default", targetForkId := none,
    currentConversationId := none, error := none }

/-- Fork-navigation script, as a function of the conversation global and of
location.pathname (none models a non-string pathname).  The model is pure: the
url object built from location.href shares its pathname with location, and
navigation is recorded in the outcome. -/
def forkNavScript (convo : ConvoState) (pathname : Option String) : ForkScriptOutcome :=
  match convo with
  | ConvoState.absent =>
    { response := { forkBase with reason := "no-forks" }, navigatedTo := none }
  | ConvoState.forksNotArray =>
    { response := { forkBase with reason := "no-forks" }, navigatedTo := none }
  | ConvoState.forksArr items =>
    if items = [] then
      { response := { forkBase with reason := "no-forks" }, navigatedTo := none }
    else if filteredForks items = [] then
      { response := { forkBase with reason := "no-valid-forks" }, navigatedTo := none }
    else if latestFork items ≠ "" ∧ forkCurrent pathname ≠ "" ∧
        latestFork items ≠ forkCurrent pathname then
      { response := { forkBase with
          action := "navigated", reason := "navigated-to-fork",
          targetForkId := some (latestFork items),
          currentConversationId :=
            if forkCurrent pathname = "" then none else some (forkCurrent pathname) },
        navigatedTo :=
          some (String.mk
            (replaceForkSegment (pathname.getD ("")).data (latestFork items).data)) }
    else
      { response := { forkBase with
          reason := if latestFork items ≠ "" then "already-on-fork" else "missing-latest",
          targetForkId := some (latestFork items),
          currentConversationId :=
            if forkCurrent pathname = "" then none else some (forkCurrent pathname) },
        navigatedTo := none }

/-- Environment seen by the reply-focus script. -/
structure FocusEnv where
  docScrollHeight : Nat
  bodyScrollHeight : Nat
  scrollThrows : Bool
  textareaFound : Bool
  textareaValueLen : Nat
  hasSetSelectionRange : Bool
deriving DecidableEq

/-- Observable outcome of the reply-focus script. -/
structure FocusOutcome where
  scrolledTo : Option Nat
  focusedTextarea : Bool
  selectionRange : Option (Nat × Nat)
deriving DecidableEq

/-- Scroll target computed by the script: documentElement scroll height, else
body scroll height, else zero, combined by JavaScript short-circuit or. -/
def scrollTargetJs (docH bodyH : Nat) : Nat :=
  if docH ≠ 0 then docH else if bodyH ≠ 0 then bodyH else 0

/-- Reply-focus script injected by focus_reply: scroll attempt wrapped in
try-catch, then querySelector for the textarea, focus, and caret placement at
the end of its value. -/
def focusReplyScript (env : FocusEnv) : FocusOutcome :=
  if env.textareaFound then
    { scrolledTo := if env.scrollThrows then none
        else some (scrollTargetJs env.docScrollHeight env.bodyScrollHeight),
      focusedTextarea := true,
      selectionRange := if env.hasSetSelectionRange then
        some (env.textareaValueLen, env.textareaValueLen) else none }
  else
    { scrolledTo := if env.scrollThrows then none
        else some (scrollTargetJs env.docScrollHeight env.bodyScrollHeight),
      focusedTextarea := false, selectionRange := none }

/-- Parsed JSON payload captured from the fork-navigation eval, restricted to
the string-or-null fields of the script's response shape; a field is none when
absent or null. -/
structure Payload where
  action : Option String
  reason : Option String
  targetForkId : Option String
  currentConversationId : Option String
  error : Option String
deriving DecidableEq

/-- Captured standard output of the fork-navigation eval, as seen by
json.loads: not JSON at all (with the decode error detail), JSON but not an
object, or an object. -/
inductive EvalOutput where
  | unparseable : String → EvalOutput
  | nonMapping : EvalOutput
  | mapping : Payload → EvalOutput
deriving DecidableEq

/-- Host-side result of maybe_switch_to_most_recent_fork: the returned pair
plus the warnings printed to standard error. -/
structure HostForkResult where
  shouldFocus : Bool
  statusMessage : Option String
  stderrWarnings : List String
deriving DecidableEq

/-- Warning printed for an in-page error reported by the script: reason equal
to the error string and a truthy error field. -/
def forkWarnings (p : Payload) : List String :=
  if p.reason = some ("error") then
    match truthy p.error with
    | some e => ["Warning: fork navigation failed inside the tab: " ++ e]
    | none => []
  else []

/-- Name used in the navigated status message: the target fork id, else the
current conversation id, else the literal latest-fork text, under Python
truthiness. -/
def forkTarget (p : Payload) : String :=
  match truthy p.targetForkId with
  | some t => t
  | none =>
    match truthy p.currentConversationId with
    | some c => c
    | none => "latest fork"

/-- Host-side handling in maybe_switch_to_most_recent_fork of the captured
eval output, the eval subprocess itself having exited successfully. -/
def maybe_switch_to_most_recent_fork (out : EvalOutput) : HostForkResult :=
  match out with
  | EvalOutput.unparseable d =>
    { shouldFocus := true, statusMessage := none,
      stderrWarnings :=
        ["Warning: unable to parse CDP eval output for fork navigation: " ++ d] }
  | EvalOutput.nonMapping =>
    { shouldFocus := true, statusMessage := none, stderrWarnings := [] }
  | EvalOutput.mapping p =>
    if p.action = some ("navigated") then
      { shouldFocus := false,
        statusMessage :=
          some ("Tab activated and navigated to fork " ++ forkTarget p ++ "."),
        stderrWarnings := forkWarnings p }
    else { shouldFocus := true, statusMessage := none, stderrWarnings := forkWarnings p }

/-- JSON round trip from the script's response object to the host's parsed
payload. -/
def responseToPayload (r : ForkResponse) : Payload :=
  { action := some r.action, reason := some r.reason, targetForkId := r.targetForkId,
    currentConversationId := r.currentConversationId, error := r.error }

/-- External commands issued by the run, in order. -/
inductive Command where
  | listTabs : Command
  | switchTab : String → Command
  | connect : String → String → Command
  | evalFork : Command
  | evalFocus : Command
deriving DecidableEq

/-- Final outcome of a run: SystemExit with a message, SystemExit raised by
run_cdp for a failed subprocess, or normal exit with the printed line. -/
inductive RunOutcome where
  | fatal : String → RunOutcome
  | cmdFailure : Command → Nat → RunOutcome
  | success : String → RunOutcome
deriving DecidableEq

/-- Behavior of the external cdp tool during one run: exit codes of the four
commands that may follow the tab listing, and the captured output of the
fork-navigation eval. -/
structure ExtEnv where
  switchExit : Nat
  connectExit : Nat
  forkEvalExit : Nat
  focusEvalExit : Nat
  forkEvalOutput : EvalOutput
deriving DecidableEq

/-- Entry point main, as a function of the parsed tab list, the arguments and
the external tool's behavior; returns the issued commands in order and the
outcome of the run. -/
def mainRun (tabs : List Tab) (key sess : String) (mostRecentFork : Bool)
    (env : ExtEnv) : List Command × RunOutcome :=
  if tabs = [] then
    ([Command.listTabs],
      RunOutcome.fatal ("No discoverable tabs. Is Chrome running with --remote-debugging-port?"))
  else
    match find_tab tabs key with
    | Except.error msg => ([Command.listTabs], RunOutcome.fatal msg)
    | Except.ok tab =>
      match truthy tab.id with
      | none =>
        ([Command.listTabs], RunOutcome.fatal ("Selected tab has no ID; cannot continue."))
      | some tid =>
        if env.switchExit ≠ 0 then
          ([Command.listTabs, Command.switchTab tid],
            RunOutcome.cmdFailure (Command.switchTab tid) env.switchExit)
        else
          match truthy tab.url with
          | none =>
            ([Command.listTabs, Command.switchTab tid],
              RunOutcome.fatal ("Selected tab has no URL; cannot connect."))
          | some url =>
            if env.connectExit ≠ 0 then
              ([Command.listTabs, Command.switchTab tid, Command.connect sess url],
                RunOutcome.cmdFailure (Command.connect sess url) env.connectExit)
            else if mostRecentFork then
              if env.forkEvalExit ≠ 0 then
                ([Command.listTabs, Command.switchTab tid, Command.connect sess url,
                    Command.evalFork],
                  RunOutcome.cmdFailure Command.evalFork env.forkEvalExit)
              else if (maybe_switch_to_most_recent_fork env.forkEvalOutput).shouldFocus then
                if env.focusEvalExit ≠ 0 then
                  ([Command.listTabs, Command.switchTab tid, Command.connect sess url,
                      Command.evalFork, Command.evalFocus],
                    RunOutcome.cmdFailure Command.evalFocus env.focusEvalExit)
                else
                  ([Command.listTabs, Command.switchTab tid, Command.connect sess url,
                      Command.evalFork, Command.evalFocus],
                    RunOutcome.success
                      ((maybe_switch_to_most_recent_fork env.forkEvalOutput).statusMessage.getD
                        ("Tab activated and textarea focused.")))
              else
                ([Command.listTabs, Command.switchTab tid, Command.connect sess url,
                    Command.evalFork],
                  RunOutcome.success
                    ((maybe_switch_to_most_recent_fork env.forkEvalOutput).statusMessage.getD
                      ("Tab activated and navigated to the latest fork.")))
            else
              if env.focusEvalExit ≠ 0 then
                ([Command.listTabs, Command.switchTab tid, Command.connect sess url,
                    Command.evalFocus],
                  RunOutcome.cmdFailure Command.evalFocus env.focusEvalExit)
              else
                ([Command.listTabs, Command.switchTab tid, Command.connect sess url,
                    Command.evalFocus],
                  RunOutcome.success ("Tab activated and textarea focused."))

theorem findFirst {α : Type} (p : α → Bool) : ∀ (l : List α) (a : α), l.find? p = some a →
    ∃ n, l[n]? = some a ∧ p a = true ∧ ∀ u ∈ l.take n, p u = false := by
  intro l
  induction l with
  | nil => intro a h; simp [List.find?] at h
  | cons x xs ih =>
    intro a h
    by_cases hp : p x = true
    · rw [List.find?_cons_of_pos _ hp] at h
      obtain rfl : x = a := Option.some.inj h
      exact ⟨0, by simp, hp, by simp⟩
    · have hp2 : p x = false := by simpa using hp
      rw [List.find?_cons_of_neg _ (by simp [hp2])] at h
      obtain ⟨n, hn, hpa, hall⟩ := ih a h
      refine ⟨n + 1, by simpa using hn, hpa, ?_⟩
      intro u hu
      rw [List.take_succ_cons] at hu
      rcases List.mem_cons.mp hu with rfl | hmem
      · exact hp2
      · exact hall u hmem

theorem getLastDMem {α : Type} : ∀ (l : List α) (d : α), l ≠ [] → l.getLastD d ∈ l := by
  intro l
  induction l with
  | nil => intro d h; exact absurd rfl h
  | cons a as ih =>
    intro d _
    cases as with
    | nil => simp [List.getLastD]
    | cons b bs =>
      have hm := ih a (by simp)
      have he : (a :: b :: bs).getLastD d = (b :: bs).getLastD a := by
        simp [List.getLastD]
      rw [he]
      exact List.mem_cons.mpr (Or.inr hm)

theorem filteredForksNeEmpty (items : List JsItem) (s : String)
    (hs : s ∈ filteredForks items) : ¬ s = "" := by
  intro hempty
  rw [filteredForks] at hs
  rcases List.mem_filterMap.mp hs with ⟨a, _, hfa⟩
  cases a with
  | none => exact Option.noConfusion hfa
  | some str =>
    dsimp only at hfa
    by_cases ht : jsTrim str = ""
    · rw [if_neg (fun hne => hne ht)] at hfa
      exact Option.noConfusion hfa
    · rw [if_pos ht] at hfa
      have hse : str = s := Option.some.inj hfa
      exact ht (by rw [hse, hempty]; rfl)

theorem latestForkNeEmpty (items : List JsItem) (h : filteredForks items ≠ []) :
    ¬ (filteredForks items).getLastD ("") = "" :=
  filteredForksNeEmpty items _ (getLastDMem _ _ h)

theorem cMatchNeNil : ∀ (l : List Char) (seg : List Char), cMatch l = some seg → seg ≠ [] := by
  intro l
  induction l with
  | nil => intro seg h; exact Option.noConfusion h
  | cons c rest ih =>
    intro seg h
    rw [cMatch] at h
    by_cases hc : c = '/' ∧ rest.take 2 = ['c', '/'] ∧
        (rest.drop 2).takeWhile (fun ch => ch != '/') ≠ []
    · rw [if_pos hc] at h
      have := Option.some.inj h
      rw [← this]
      exact hc.2.2
    · rw [if_neg hc] at h
      exact ih seg h

theorem cMatchDecomp : ∀ (l : List Char) (seg : List Char), cMatch l = some seg →
    ∃ pre post, l = pre ++ '/' :: 'c' :: '/' :: (seg ++ post) := by
  intro l
  induction l with
  | nil => intro seg h; exact Option.noConfusion h
  | cons c rest ih =>
    intro seg h
    rw [cMatch] at h
    by_cases hc : c = '/' ∧ rest.take 2 = ['c', '/'] ∧
        (rest.drop 2).takeWhile (fun ch => ch != '/') ≠ []
    · rw [if_pos hc] at h
      have hseg := Option.some.inj h
      refine ⟨[], (rest.drop 2).dropWhile (fun ch => ch != '/'), ?_⟩
      have hsplit : rest = rest.take 2 ++ rest.drop 2 := (List.take_append_drop 2 rest).symm
      have hrun : (rest.drop 2).takeWhile (fun ch => ch != '/') ++
          (rest.drop 2).dropWhile (fun ch => ch != '/') = rest.drop 2 :=
        List.takeWhile_append_dropWhile _ _
      calc c :: rest = c :: (rest.take 2 ++ rest.drop 2) := by rw [← hsplit]
        _ = '/' :: 'c' :: '/' :: rest.drop 2 := by rw [hc.1, hc.2.1]; rfl
        _ = [] ++ '/' :: 'c' :: '/' :: (seg ++ (rest.drop 2).dropWhile (fun ch => ch != '/')) := by
            rw [← hseg, hrun]; rfl
    · rw [if_neg hc] at h
      obtain ⟨pre, post, hp⟩ := ih seg h
      exact ⟨c :: pre, post, by rw [hp]; rfl⟩

theorem splitSlashNeNil : ∀ (l : List Char), splitSlash l ≠ [] := by
  intro l
  cases l with
  | nil => simp [splitSlash]
  | cons c rest =>
    rw [splitSlash]
    by_cases hc : c = '/'
    · rw [if_pos hc]; simp
    · rw [if_neg hc]
      cases hs : splitSlash rest with
      | nil => simp
      | cons h t => simp

theorem splitSlashSlashCons (xs : List Char) : splitSlash ('/' :: xs) = [] :: splitSlash xs := by
  rw [splitSlash, if_pos rfl]

theorem splitSlashHeadC (xs : List Char) :
    splitSlash ('c' :: '/' :: xs) = ['c'] :: splitSlash xs := by
  rw [splitSlash, if_neg (by decide), splitSlashSlashCons]

theorem segExistsAfterCSlash : ∀ (pre rest : List Char), ∃ i, 1 ≤ i ∧
    (splitSlash (pre ++ '/' :: 'c' :: '/' :: rest))[i]? = some ['c'] ∧
    i + 1 < (splitSlash (pre ++ '/' :: 'c' :: '/' :: rest)).length := by
  intro pre
  induction pre with
  | nil =>
    intro rest
    rw [List.nil_append, splitSlashSlashCons, splitSlashHeadC]
    refine ⟨1, le_refl 1, by simp, ?_⟩
    have hpos : 0 < (splitSlash rest).length :=
      List.length_pos.mpr (splitSlashNeNil rest)
    simp only [List.length_cons]
    omega
  | cons p ps ih =>
    intro rest
    obtain ⟨i, h1, h2, h3⟩ := ih rest
    rw [List.cons_append]
    by_cases hp : p = '/'
    · rw [hp, splitSlashSlashCons]
      refine ⟨i + 1, by omega, ?_, ?_⟩
      · rw [List.getElem?_cons_succ]; exact h2
      · simp only [List.length_cons]; omega
    · rw [splitSlash, if_neg hp]
      cases hsm : splitSlash (ps ++ '/' :: 'c' :: '/' :: rest) with
      | nil => exact absurd hsm (splitSlashNeNil _)
      | cons hh tt =>
        rw [hsm] at h2 h3
        cases i with
        | zero => omega
        | succ j =>
          rw [List.getElem?_cons_succ] at h2
          simp only [List.length_cons] at h3
          refine ⟨j + 1, by omega, ?_, ?_⟩
          · rw [List.getElem?_cons_succ]; exact h2
          · simp only [List.length_cons]; omega

theorem idxOfSegLe : ∀ (segs : List (List Char)) (i : Nat),
    segs[i]? = some ['c'] → idxOfSeg segs ≤ i := by
  intro segs
  induction segs with
  | nil => intro i h; simp at h
  | cons hh tt ih =>
    intro i h
    rw [idxOfSeg]
    by_cases hc : hh = ['c']
    · rw [if_pos hc]; omega
    · rw [if_neg hc]
      cases i with
      | zero =>
        rw [List.getElem?_cons_zero] at h
        exact absurd (Option.some.inj h) hc
      | succ j =>
        rw [List.getElem?_cons_succ] at h
        have := ih j h
        omega

theorem idxOfSegGet : ∀ (segs : List (List Char)) (i : Nat),
    segs[i]? = some ['c'] → segs[idxOfSeg segs]? = some ['c'] := by
  intro segs
  induction segs with
  | nil => intro i h; simp at h
  | cons hh tt ih =>
    intro i h
    rw [idxOfSeg]
    by_cases hc : hh = ['c']
    · rw [if_pos hc, List.getElem?_cons_zero, hc]
    · rw [if_neg hc]
      cases i with
      | zero =>
        rw [List.getElem?_cons_zero] at h
        exact absurd (Option.some.inj h) hc
      | succ j =>
        rw [List.getElem?_cons_succ] at h
        rw [List.getElem?_cons_succ]
        exact ih j h

theorem idxOfSegMin : ∀ (segs : List (List Char)) (j : Nat),
    j < idxOfSeg segs → ¬ segs[j]? = some ['c'] := by
  intro segs
  induction segs with
  | nil => intro j h; rw [idxOfSeg] at h; omega
  | cons hh tt ih =>
    intro j h
    rw [idxOfSeg] at h
    by_cases hc : hh = ['c']
    · rw [if_pos hc] at h; omega
    · rw [if_neg hc] at h
      cases j with
      | zero =>
        rw [List.getElem?_cons_zero]
        intro hx
        exact hc (Option.some.inj hx)
      | succ k =>
        rw [List.getElem?_cons_succ]
        exact ih k (by omega)

theorem forkMsgNeFallback (t : String) :
    ¬ ("Tab activated and navigated to fork " ++ t ++ "." =
        "Tab activated and navigated to the latest fork.") := by
  intro h
  have hd := congrArg String.data h
  rw [strDataAppend, strDataAppend] at hd
  have h31 : (("Tab activated and navigated to fork ").data ++ t.data ++ (".").data)[31]? =
      (("Tab activated and navigated to the latest fork.").data)[31]? := by rw [hd]
  have hlen : 31 < (("Tab activated and navigated to fork ").data ++ t.data).length := by
    rw [List.length_append]
    have h36 : ("Tab activated and navigated to fork ").data.length = 36 := by decide
    omega
  rw [List.getElem?_append_left hlen] at h31
  rw [List.getElem?_append_left (by decide)] at h31
  have hf : (("Tab activated and navigated to fork ").data)[31]? = some ('f') := by decide
  have ht : (("Tab activated and navigated to the latest fork.").data)[31]? = some ('t') := by
    decide
  rw [hf, ht] at h31
  exact absurd (Option.some.inj h31) (by decide)

theorem hostForkFalseMsg (out : EvalOutput)
    (h : (maybe_switch_to_most_recent_fork out).shouldFocus = false) :
    ∃ t, (maybe_switch_to_most_recent_fork out).statusMessage =
      some ("Tab activated and navigated to fork " ++ t ++ ".") := by
  cases out with
  | unparseable d => exact absurd h (by simp [maybe_switch_to_most_recent_fork])
  | nonMapping => exact absurd h (by simp [maybe_switch_to_most_recent_fork])
  | mapping p =>
    by_cases ha : p.action = some ("navigated")
    · rw [maybe_switch_to_most_recent_fork, if_pos ha]
      exact ⟨forkTarget p, rfl⟩
    · rw [maybe_switch_to_most_recent_fork, if_neg ha] at h
      simp at h

theorem hostForkTrueNone (out : EvalOutput)
    (h : (maybe_switch_to_most_recent_fork out).shouldFocus = true) :
    (maybe_switch_to_most_recent_fork out).statusMessage = none := by
  cases out with
  | unparseable d => rfl
  | nonMapping => rfl
  | mapping p =>
    by_cases ha : p.action = some ("navigated")
    · rw [maybe_switch_to_most_recent_fork, if_pos ha] at h
      simp at h
    · rw [maybe_switch_to_most_recent_fork, if_neg ha]

theorem mainRunSuccessShape (tabs : List Tab) (key sess : String) (mrf : Bool) (env : ExtEnv)
    (s : String) (h : (mainRun tabs key sess mrf env).2 = RunOutcome.success s) :
    s = "Tab activated and textarea focused." ∨
    ∃ t, s = "Tab activated and navigated to fork " ++ t ++ "." := by
  rw [mainRun] at h
  split at h
  · simp at h
  · split at h
    · simp at h
    · split at h
      · simp at h
      · split at h
        · simp at h
        · split at h
          · simp at h
          · split at h
            · simp at h
            · split at h
              · split at h
                · simp at h
                · split at h
                  · rename_i hsf
                    split at h
                    · simp at h
                    · have hnone := hostForkTrueNone _ hsf
                      simp only [Prod.snd, RunOutcome.success.injEq] at h
                      rw [hnone] at h
                      exact Or.inl (by simpa using h.symm)
                  · rename_i hsf
                    have hb : (maybe_switch_to_most_recent_fork
                        env.forkEvalOutput).shouldFocus = false := by
                      cases hx : (maybe_switch_to_most_recent_fork
                          env.forkEvalOutput).shouldFocus with
                      | false => rfl
                      | true => exact absurd hx hsf
                    obtain ⟨t, ht⟩ := hostForkFalseMsg _ hb
                    simp only [Prod.snd, RunOutcome.success.injEq] at h
                    rw [ht] at h
                    exact Or.inr ⟨t, by simpa using h.symm⟩
              · split at h
                · simp at h
                · simp only [Prod.snd, RunOutcome.success.injEq] at h
                  exact Or.inl h.symm

/-- C8: for every value of the CDP_PORT environment variable, the default port
equals the parsed integer value when the whitespace-stripped value parses as an
integer strictly greater than zero, and equals 9222 in every other case
(unset, empty, non-integer, zero, or negative). -/
theorem C8_env_port_default (e : Option String) :
    (∀ v : Int, pyInt (pyStrip (e.getD (""))) = some v → 0 < v →
      env_port_default e = v.toNat) ∧
    ((pyInt (pyStrip (e.getD (""))) = none ∨
        ∃ v : Int, pyInt (pyStrip (e.getD (""))) = some v ∧ v ≤ 0) →
      env_port_default e = 9222) := by
  constructor
  · intro v hv hpos
    rw [env_port_default]
    by_cases hr : pyStrip (e.getD ("")) = ""
    · rw [hr] at hv
      exact Option.noConfusion hv
    · rw [if_pos hr, hv]
      show (if 0 < v then v.toNat else 9222) = v.toNat
      rw [if_pos hpos]
  · intro hcase
    rw [env_port_default]
    by_cases hr : pyStrip (e.getD ("")) = ""
    · rw [if_neg (fun hne => hne hr)]
    · rw [if_pos hr]
      rcases hcase with hnone | ⟨v, hv, hle⟩
      · rw [hnone]
      · rw [hv]
        show (if 0 < v then v.toNat else 9222) = 9222
        rw [if_neg (by omega)]

/-- Witness for C8: the stripped value 8080 yields port 8080; a non-integer
value yields 9222. -/
theorem C8_env_port_default_witness :
    env_port_default (some (" 8080 ")) = ((8080 : Int)).toNat ∧
    env_port_default (some ("abc")) = 9222 :=
  ⟨(C8_env_port_default (some (" 8080 "))).1 8080 (by decide) (by decide),
   (C8_env_port_default (some ("abc"))).2 (Or.inl (by decide))⟩

/-- Counterexample for C3: with documentElement scroll height 100 and body
scroll height 500, the script scrolls to 100, not to the maximum 500 — the
source combines the two heights with JavaScript short-circuit or, not max. -/
theorem C3_focus_scroll_cex :
    (focusReplyScript ⟨100, 500, false, true, 0, true⟩).scrolledTo = some 100 ∧
    ¬ (focusReplyScript ⟨100, 500, false, true, 0, true⟩).scrolledTo =
      some (Nat.max 100 500) := by
  refine ⟨rfl, ?_⟩
  intro h
  have := Option.some.inj h
  simp [focusReplyScript, scrollTargetJs] at this

/-- C3 as amended: when the scroll call does not throw, the script scrolls to
documentElement scroll height if non-zero, else body scroll height, else zero
(the or-chain, not the maximum); any exception thrown by the scroll call is
swallowed, and the script still proceeds to locate and focus the textarea. -/
theorem C3_focus_scroll (env : FocusEnv) :
    (env.scrollThrows = false →
      (focusReplyScript env).scrolledTo =
        some (if env.docScrollHeight ≠ 0 then env.docScrollHeight
          else if env.bodyScrollHeight ≠ 0 then env.bodyScrollHeight else 0)) ∧
    (env.scrollThrows = true → (focusReplyScript env).scrolledTo = none) ∧
    (focusReplyScript env).focusedTextarea = env.textareaFound := by
  obtain ⟨d, b, st, tf, len, sel⟩ := env
  refine ⟨?_, ?_, ?_⟩
  · intro hst
    replace hst : st = false := hst
    cases tf <;> simp [focusReplyScript, scrollTargetJs, hst]
  · intro hst
    replace hst : st = true := hst
    cases tf <;> simp [focusReplyScript, hst]
  · cases tf <;> simp [focusReplyScript]

/-- Witness for C3: at scroll heights 100 and 500 without a throw the script
scrolls to 100; with a throw it still focuses the found textarea. -/
theorem C3_focus_scroll_witness :
    (focusReplyScript ⟨100, 500, false, true, 0, true⟩).scrolledTo = some 100 ∧
    (focusReplyScript ⟨100, 500, true, true, 0, true⟩).focusedTextarea = true := by
  constructor
  · have h := (C3_focus_scroll ⟨100, 500, false, true, 0, true⟩).1 rfl
    simpa using h
  · exact (C3_focus_scroll ⟨100, 500, true, true, 0, true⟩).2.2

/-- Counterexample for C2: with the forks attribute equal to the empty array
the script reports no-forks (the pre-filter emptiness check fires), not
no-valid-forks as the claim states. -/
theorem C2_empty_forks_cex :
    (forkNavScript (ConvoState.forksArr []) (some ("/c/x"))).response.reason = "no-forks" ∧
    ¬ (forkNavScript (ConvoState.forksArr []) (some ("/c/x"))).response.reason =
      "no-valid-forks" := by
  refine ⟨rfl, ?_⟩
  intro h
  simp [forkNavScript, forkBase] at h

/-- C2 as amended: with the forks attribute equal to the empty array the
script reports reason no-forks (caught by the emptiness check that precedes
filtering), takes no navigation action, and the host then proceeds to the
reply-focus step. -/
theorem C2_empty_forks (p : Option String) :
    (forkNavScript (ConvoState.forksArr []) p).response.reason = "no-forks" ∧
    (forkNavScript (ConvoState.forksArr []) p).navigatedTo = none ∧
    (maybe_switch_to_most_recent_fork (EvalOutput.mapping
      (responseToPayload (forkNavScript (ConvoState.forksArr []) p).response))).shouldFocus =
      true := by
  refine ⟨rfl, rfl, ?_⟩
  rw [maybe_switch_to_most_recent_fork, if_neg ?_]
  intro h
  simp [forkNavScript, forkBase, responseToPayload] at h

/-- C9: when the filtered forks list is non-empty but the page path holds no
slash-c-slash-id segment, the script takes no navigation action and reports
reason already-on-fork; and the reason missing-latest is never produced by any
run of the script, the last filtered fork always being a non-empty string. -/
theorem C9_no_current (items : List JsItem) (p : Option String)
    (h1 : ¬ filteredForks items = [])
    (h2 : cMatch ((p.getD (""))).data = none) :
    ((forkNavScript (ConvoState.forksArr items) p).response.reason = "already-on-fork" ∧
      (forkNavScript (ConvoState.forksArr items) p).navigatedTo = none) ∧
    ∀ (convo : ConvoState) (q : Option String),
      ¬ (forkNavScript convo q).response.reason = "missing-latest" := by
  have hlat : ¬ latestFork items = "" := latestForkNeEmpty items h1
  constructor
  · have hitems : ¬ items = [] := by
      intro hi
      rw [hi] at h1
      exact h1 rfl
    have hcur : forkCurrent p = "" := by
      rw [forkCurrent, h2]
      rfl
    have hcond : ¬ (latestFork items ≠ "" ∧ forkCurrent p ≠ "" ∧
        latestFork items ≠ forkCurrent p) := fun hc => hc.2.1 hcur
    simp only [forkNavScript]
    rw [if_neg hitems, if_neg h1, if_neg hcond]
    refine ⟨?_, rfl⟩
    show (if latestFork items ≠ "" then ("already-on-fork" : String) else "missing-latest") =
      "already-on-fork"
    rw [if_pos hlat]
  · intro convo q
    cases convo with
    | absent =>
      intro h
      exact absurd (show ("no-forks" : String) = "missing-latest" from h) (by decide)
    | forksNotArray =>
      intro h
      exact absurd (show ("no-forks" : String) = "missing-latest" from h) (by decide)
    | forksArr its =>
      by_cases hi : its = []
      · intro h
        simp only [forkNavScript] at h
        rw [if_pos hi] at h
        exact absurd (show ("no-forks" : String) = "missing-latest" from h) (by decide)
      · by_cases hff : filteredForks its = []
        · intro h
          simp only [forkNavScript] at h
          rw [if_neg hi, if_pos hff] at h
          exact absurd (show ("no-valid-forks" : String) = "missing-latest" from h) (by decide)
        · have hl2 : ¬ latestFork its = "" := latestForkNeEmpty its hff
          by_cases hc : latestFork its ≠ "" ∧ forkCurrent q ≠ "" ∧
              latestFork its ≠ forkCurrent q
          · intro h
            simp only [forkNavScript] at h
            rw [if_neg hi, if_neg hff, if_pos hc] at h
            exact absurd (show ("navigated-to-fork" : String) = "missing-latest" from h)
              (by decide)
          · intro h
            simp only [forkNavScript] at h
            rw [if_neg hi, if_neg hff, if_neg hc] at h
            have h2 : (if latestFork its ≠ "" then ("already-on-fork" : String)
                else "missing-latest") = "missing-latest" := h
            rw [if_pos hl2] at h2
            exact absurd h2 (by decide)

/-- Witness for C9: a single fork x with a path that has no conversation
segment yields already-on-fork. -/
theorem C9_no_current_witness :
    (forkNavScript (ConvoState.forksArr [some ("x")]) (some ("/nope"))).response.reason =
      "already-on-fork" :=
  ((C9_no_current [some ("x")] (some ("/nope")) (by decide) (by decide)).1).1

/-- C4: with a conversation present, a non-empty filtered forks list and a
path holding a slash-c-slash-id segment, the script selects the last filtered
fork as target; when the target differs from the current id it reports action
navigated with reason navigated-to-fork and navigates to the path whose
segment after the first literal c segment is replaced by the target. -/
theorem C4_fork_navigation (items : List JsItem) (path : String) (cur : List Char)
    (hf : ¬ filteredForks items = [])
    (hm : cMatch path.data = some cur) :
    (forkNavScript (ConvoState.forksArr items) (some path)).response.targetForkId =
      some (latestFork items) ∧
    (¬ latestFork items = String.mk cur →
      (forkNavScript (ConvoState.forksArr items) (some path)).response.action = "navigated" ∧
      (forkNavScript (ConvoState.forksArr items) (some path)).response.reason =
        "navigated-to-fork" ∧
      ∃ idx, (splitSlash path.data)[idx]? = some ['c'] ∧
        (∀ j, j < idx → ¬ (splitSlash path.data)[j]? = some ['c']) ∧
        idx + 1 < (splitSlash path.data).length ∧
        (forkNavScript (ConvoState.forksArr items) (some path)).navigatedTo =
          some (String.mk (joinSlash
            ((splitSlash path.data).set (idx + 1) (latestFork items).data)))) := by
  have hitems : ¬ items = [] := by
    intro hi
    rw [hi] at hf
    exact hf rfl
  have hlat : ¬ latestFork items = "" := latestForkNeEmpty items hf
  have hcur2 : forkCurrent (some path) = String.mk cur := by
    simp only [forkCurrent, Option.getD_some, hm, Option.getD]
  have hcurne : ¬ String.mk cur = "" := by
    intro he
    apply cMatchNeNil path.data cur hm
    have hd := congrArg String.data he
    simpa using hd
  constructor
  · simp only [forkNavScript]
    rw [if_neg hitems, if_neg hf]
    by_cases hc : latestFork items ≠ "" ∧ forkCurrent (some path) ≠ "" ∧
        latestFork items ≠ forkCurrent (some path)
    · rw [if_pos hc]
    · rw [if_neg hc]
  · intro hne
    have hcond : latestFork items ≠ "" ∧ forkCurrent (some path) ≠ "" ∧
        latestFork items ≠ forkCurrent (some path) := by
      refine ⟨hlat, ?_, ?_⟩
      · rw [hcur2]; exact hcurne
      · rw [hcur2]; exact hne
    simp only [forkNavScript]
    rw [if_neg hitems, if_neg hf, if_pos hcond]
    refine ⟨rfl, rfl, ?_⟩
    obtain ⟨pre, post, hdecomp⟩ := cMatchDecomp path.data cur hm
    obtain ⟨i, hi1, hi2, hi3⟩ := segExistsAfterCSlash pre (cur ++ post)
    rw [← hdecomp] at hi2 hi3
    have hbound : idxOfSeg (splitSlash path.data) + 1 < (splitSlash path.data).length := by
      have hle := idxOfSegLe (splitSlash path.data) i hi2
      omega
    refine ⟨idxOfSeg (splitSlash path.data), idxOfSegGet _ i hi2,
      fun j hj => idxOfSegMin _ j hj, hbound, ?_⟩
    show some (String.mk (replaceForkSegment path.data (latestFork items).data)) = _
    rw [replaceForkSegment, if_pos hbound]

/-- Witness for C4: forks a, b, c with current path of conversation b selects
target c and reports navigated. -/
theorem C4_fork_navigation_witness :
    (forkNavScript (ConvoState.forksArr [some ("a"), some ("b"), some ("c")])
      (some ("/c/b"))).response.action = "navigated" ∧
    (forkNavScript (ConvoState.forksArr [some ("a"), some ("b"), some ("c")])
      (some ("/c/b"))).response.targetForkId = some ("c") := by
  have h := C4_fork_navigation [some ("a"), some ("b"), some ("c")] ("/c/b")
    [Char.ofNat 98] (by decide) (by decide)
  refine ⟨(h.2 (by decide)).1, ?_⟩
  rw [h.1]
  decide

theorem mainRunFocusCmd (tabs : List Tab) (key sess : String) (env : ExtEnv)
    (hmem : Command.evalFocus ∈ (mainRun tabs key sess true env).1) :
    (maybe_switch_to_most_recent_fork env.forkEvalOutput).shouldFocus = true := by
  rw [mainRun] at hmem
  split at hmem
  · simp at hmem
  · split at hmem
    · simp at hmem
    · split at hmem
      · simp at hmem
      · split at hmem
        · simp at hmem
        · split at hmem
          · simp at hmem
          · split at hmem
            · simp at hmem
            · split at hmem
              · split at hmem
                · simp at hmem
                · split at hmem
                  · rename_i hsf
                    exact hsf
                  · simp at hmem
              · rename_i hmrf
                exact absurd rfl hmrf

/-- C5: whenever the parsed fork-navigation result has action navigated, the
host suppresses the reply-focus step and the status message names the target
fork id, falling back to the current conversation id and then to the literal
latest-fork text when absent or empty. -/
theorem C5_navigated_host (p : Payload) (hp : p.action = some ("navigated")) :
    (maybe_switch_to_most_recent_fork (EvalOutput.mapping p)).shouldFocus = false ∧
    (maybe_switch_to_most_recent_fork (EvalOutput.mapping p)).statusMessage =
      some ("Tab activated and navigated to fork " ++
        (match truthy p.targetForkId with
          | some t => t
          | none =>
            match truthy p.currentConversationId with
            | some c => c
            | none => "latest fork") ++ ".") ∧
    ∀ (tabs : List Tab) (key sess : String) (env : ExtEnv),
      env.forkEvalOutput = EvalOutput.mapping p →
      ¬ Command.evalFocus ∈ (mainRun tabs key sess true env).1 := by
  have hsf : (maybe_switch_to_most_recent_fork (EvalOutput.mapping p)).shouldFocus = false := by
    rw [maybe_switch_to_most_recent_fork, if_pos hp]
  refine ⟨hsf, ?_, ?_⟩
  · rw [maybe_switch_to_most_recent_fork, if_pos hp]
    rfl
  · intro tabs key sess env henv hmem
    have htrue := mainRunFocusCmd tabs key sess env hmem
    rw [henv, hsf] at htrue
    exact Bool.noConfusion htrue

/-- Witness for C5: a navigated payload with target f1 suppresses focusing and
names f1 in the message. -/
theorem C5_navigated_host_witness :
    (maybe_switch_to_most_recent_fork (EvalOutput.mapping
      ⟨some ("navigated"), none, some ("f1"), none, none⟩)).shouldFocus = false ∧
    (maybe_switch_to_most_recent_fork (EvalOutput.mapping
      ⟨some ("navigated"), none, some ("f1"), none, none⟩)).statusMessage =
      some ("Tab activated and navigated to fork f1.") := by
  have h := C5_navigated_host ⟨some ("navigated"), none, some ("f1"), none, none⟩ rfl
  refine ⟨h.1, ?_⟩
  rw [h.2.1]
  rfl

/-- C10: maybe_switch_to_most_recent_fork never returns the pair of false and
no message — whenever it suppresses the reply-focus step it returns a message
naming a fork — so the literal fallback message of main is unreachable. -/
theorem C10_no_false_none :
    (∀ out : EvalOutput, ¬ ((maybe_switch_to_most_recent_fork out).shouldFocus = false ∧
        (maybe_switch_to_most_recent_fork out).statusMessage = none)) ∧
    (∀ out : EvalOutput, (maybe_switch_to_most_recent_fork out).shouldFocus = false →
      ∃ t, (maybe_switch_to_most_recent_fork out).statusMessage =
        some ("Tab activated and navigated to fork " ++ t ++ ".")) ∧
    ∀ (tabs : List Tab) (key sess : String) (mrf : Bool) (env : ExtEnv),
      ¬ (mainRun tabs key sess mrf env).2 =
        RunOutcome.success ("Tab activated and navigated to the latest fork.") := by
  refine ⟨?_, ?_, ?_⟩
  · rintro out ⟨hf, hn⟩
    obtain ⟨t, ht⟩ := hostForkFalseMsg out hf
    rw [hn] at ht
    exact Option.noConfusion ht
  · exact hostForkFalseMsg
  · intro tabs key sess mrf env hsucc
    rcases mainRunSuccessShape tabs key sess mrf env _ hsucc with hfoc | ⟨t, ht⟩
    · exact absurd hfoc.symm (by decide)
    · exact forkMsgNeFallback t ht.symm

/-- Witness for C10: a navigated payload suppresses focusing yet carries a
fork-naming message. -/
theorem C10_no_false_none_witness :
    ∃ t, (maybe_switch_to_most_recent_fork (EvalOutput.mapping
      ⟨some ("navigated"), none, some ("g"), none, none⟩)).statusMessage =
      some ("Tab activated and navigated to fork " ++ t ++ ".") :=
  C10_no_false_none.2.1 (EvalOutput.mapping ⟨some ("navigated"), none, some ("g"), none, none⟩)
    rfl

/-- C6: when the matched tab has a truthy id but a missing or empty url, the
run fails fatally after the switch command was issued and succeeded and before
any connect command is issued. -/
theorem C6_missing_url (tabs : List Tab) (key sess : String) (mrf : Bool) (env : ExtEnv)
    (tab : Tab) (tid : String)
    (hft : find_tab tabs key = Except.ok tab)
    (hid : truthy tab.id = some tid)
    (hurl : truthy tab.url = none)
    (hsw : env.switchExit = 0) :
    mainRun tabs key sess mrf env =
      ([Command.listTabs, Command.switchTab tid],
        RunOutcome.fatal ("Selected tab has no URL; cannot connect.")) := by
  have h0 : ¬ tabs = [] := by
    intro h
    rw [h, find_tab] at hft
    simp [List.find?] at hft
  simp [mainRun, h0, hft, hid, hurl, hsw]

/-- Witness for C6: a matched tab with id 1 and no url yields the fatal
missing-url outcome right after the switch command. -/
theorem C6_missing_url_witness :
    mainRun [⟨some ("1"), some ("[CDP:hw] page"), none⟩] ("[CDP:hw]") ("s") false
      ⟨0, 0, 0, 0, EvalOutput.nonMapping⟩ =
      ([Command.listTabs, Command.switchTab ("1")],
        RunOutcome.fatal ("Selected tab has no URL; cannot connect.")) :=
  C6_missing_url [⟨some ("1"), some ("[CDP:hw] page"), none⟩] ("[CDP:hw]") ("s") false
    ⟨0, 0, 0, 0, EvalOutput.nonMapping⟩ ⟨some ("1"), some ("[CDP:hw] page"), none⟩ ("1")
    (by rfl) (by decide) (by decide) rfl

/-- C7: unparseable or non-mapping output of the fork-navigation eval does not
abort the run — it counts as proceed-to-focus, warning on standard error in
the unparseable case, and the host runs the reply-focus step and prints the
default success message. -/
theorem C7_unparseable_proceeds (d : String) :
    ((maybe_switch_to_most_recent_fork (EvalOutput.unparseable d)).shouldFocus = true ∧
      (maybe_switch_to_most_recent_fork (EvalOutput.unparseable d)).statusMessage = none ∧
      ¬ (maybe_switch_to_most_recent_fork (EvalOutput.unparseable d)).stderrWarnings = []) ∧
    (maybe_switch_to_most_recent_fork EvalOutput.nonMapping =
      { shouldFocus := true, statusMessage := none, stderrWarnings := [] }) ∧
    ∀ (tabs : List Tab) (key sess : String) (env : ExtEnv) (tab : Tab) (tid url : String),
      (env.forkEvalOutput = EvalOutput.unparseable d ∨
        env.forkEvalOutput = EvalOutput.nonMapping) →
      env.switchExit = 0 → env.connectExit = 0 → env.forkEvalExit = 0 →
      env.focusEvalExit = 0 →
      find_tab tabs key = Except.ok tab → truthy tab.id = some tid →
      truthy tab.url = some url →
      (mainRun tabs key sess true env).2 =
        RunOutcome.success ("Tab activated and textarea focused.") ∧
      Command.evalFocus ∈ (mainRun tabs key sess true env).1 := by
  refine ⟨⟨rfl, rfl, by simp [maybe_switch_to_most_recent_fork]⟩, rfl, ?_⟩
  intro tabs key sess env tab tid url henv hsw hco hfe hfo hft hid hurl
  have h0 : ¬ tabs = [] := by
    intro h
    rw [h, find_tab] at hft
    simp [List.find?] at hft
  have hsf : (maybe_switch_to_most_recent_fork env.forkEvalOutput).shouldFocus = true := by
    rcases henv with he | he <;> rw [he] <;> rfl
  have hnone : (maybe_switch_to_most_recent_fork env.forkEvalOutput).statusMessage = none :=
    hostForkTrueNone _ hsf
  constructor
  · simp [mainRun, h0, hft, hid, hurl, hsw, hco, hfe, hfo, hsf, hnone]
  · simp [mainRun, h0, hft, hid, hurl, hsw, hco, hfe, hfo, hsf]

/-- Witness for C7: a run over one matching tab with unparseable fork output
still focuses and prints the default success line. -/
theorem C7_unparseable_proceeds_witness :
    (mainRun [⟨some ("7"), some ("My [CDP:hw] Session"), some ("http://x/c/42")⟩]
      ("[CDP:hw]") ("s") true ⟨0, 0, 0, 0, EvalOutput.unparseable ("boom")⟩).2 =
      RunOutcome.success ("Tab activated and textarea focused.") :=
  ((C7_unparseable_proceeds ("boom")).2.2
    [⟨some ("7"), some ("My [CDP:hw] Session"), some ("http://x/c/42")⟩] ("[CDP:hw]") ("s")
    ⟨0, 0, 0, 0, EvalOutput.unparseable ("boom")⟩
    ⟨some ("7"), some ("My [CDP:hw] Session"), some ("http://x/c/42")⟩ ("7")
    ("http://x/c/42") (Or.inl rfl) rfl rfl rfl rfl (by rfl) (by decide) (by decide)).1

/-- C1 (amended): the tab locator returns the first tab in list order whose
lowercased title contains the lowercased key as a substring (a missing or null
title reading as the empty string); when no tab matches, it fails with an
error message that contains the Python repr of the key — hence the key itself
whenever the key consists of printable ASCII characters other than the quotes
and the backslash — and that contains every available title, a missing or
empty title shown as the untitled placeholder. -/
theorem C1_find_tab (tabs : List Tab) (key : String) :
    (∀ t, find_tab tabs key = Except.ok t →
      ∃ n, tabs[n]? = some t ∧ titleMatches key t = true ∧
        ∀ u ∈ tabs.take n, titleMatches key u = false) ∧
    ((∃ t ∈ tabs, titleMatches key t = true) → ∃ t, find_tab tabs key = Except.ok t) ∧
    ((∀ t ∈ tabs, titleMatches key t = false) →
      ∃ msg, find_tab tabs key = Except.error msg ∧
        containsL (pyRepr key).data msg.data = true ∧
        (∀ t ∈ tabs, containsL (displayTitle t).data msg.data = true) ∧
        ((∀ c ∈ key.data, plainChar c = true) → containsL key.data msg.data = true)) := by
  refine ⟨?_, ?_, ?_⟩
  · intro t h
    rw [find_tab] at h
    cases hf : tabs.find? (fun u => titleMatches key u) with
    | none =>
      rw [hf] at h
      exact Except.noConfusion (show Except.error _ = Except.ok t from h)
    | some u =>
      rw [hf] at h
      have hut : Except.ok (ε := String) u = Except.ok t := h
      obtain rfl : u = t := Except.ok.inj hut
      exact findFirst _ tabs u hf
  · rintro ⟨t, ht, hm⟩
    rw [find_tab]
    cases hf : tabs.find? (fun u => titleMatches key u) with
    | none =>
      have := List.find?_eq_none.mp hf t ht
      exact absurd hm this
    | some u => exact ⟨u, rfl⟩
  · intro hall
    have hf : tabs.find? (fun u => titleMatches key u) = none :=
      List.find?_eq_none.mpr (fun x hx => by simp [hall x hx])
    refine ⟨"No tab title contains " ++ pyRepr key ++ ". Available titles: " ++
      commaJoin (tabs.map displayTitle), by rw [find_tab, hf], ?_, ?_, ?_⟩
    · exact containsL_of_parts _ ("No tab title contains ").data
        ((". Available titles: ").data ++ (commaJoin (tabs.map displayTitle)).data) _
        (by simp [strDataAppend, List.append_assoc])
    · intro t ht
      obtain ⟨pre, post, hcj⟩ := commaJoin_mem (displayTitle t) (tabs.map displayTitle)
        (List.mem_map_of_mem _ ht)
      exact containsL_of_parts _
        (("No tab title contains " ++ pyRepr key ++ ". Available titles: ").data ++ pre)
        post _ (by simp [strDataAppend, hcj, List.append_assoc])
    · intro hplain
      exact containsL_of_parts _
        (("No tab title contains ").data ++ [Char.ofNat 39])
        ([Char.ofNat 39] ++ ((". Available titles: ").data ++
          (commaJoin (tabs.map displayTitle)).data)) _
        (by simp [strDataAppend, pyRepr_plain key hplain, List.append_assoc])

/-- Counterexample for C1: for the one-character newline key and the empty tab
list, the error message holds the backslash-n escape produced by Python repr
but not the raw key, so the message does not include the key itself. -/
theorem C1_find_tab_cex :
    ∃ msg, find_tab [] (String.mk [Char.ofNat 10]) = Except.error msg ∧
      containsL (String.mk [Char.ofNat 10]).data msg.data = false := by
  refine ⟨_, rfl, by decide⟩

/-- Witness for C1: the first matching tab is returned for a mixed-case key,
and a non-matching plain key yields an error message containing both its repr
and the key itself. -/
theorem C1_find_tab_witness :
    (∃ n, ([⟨some ("1"), some ("Other"), some ("u")⟩,
        ⟨some ("2"), some ("My [CDP:hw] Tab"), some ("u2")⟩] : List Tab)[n]? =
        some ⟨some ("2"), some ("My [CDP:hw] Tab"), some ("u2")⟩ ∧
      titleMatches ("[cdp:HW]") ⟨some ("2"), some ("My [CDP:hw] Tab"), some ("u2")⟩ = true ∧
      ∀ u ∈ ([⟨some ("1"), some ("Other"), some ("u")⟩,
          ⟨some ("2"), some ("My [CDP:hw] Tab"), some ("u2")⟩] : List Tab).take n,
        titleMatches ("[cdp:HW]") u = false) ∧
    ∃ msg, find_tab [⟨some ("1"), some ("Other"), none⟩] ("key") = Except.error msg ∧
      containsL (pyRepr ("key")).data msg.data = true ∧
      containsL ("key").data msg.data = true := by
  constructor
  · exact (C1_find_tab [⟨some ("1"), some ("Other"), some ("u")⟩,
      ⟨some ("2"), some ("My [CDP:hw] Tab"), some ("u2")⟩] ("[cdp:HW]")).1
      ⟨some ("2"), some ("My [CDP:hw] Tab"), some ("u2")⟩ (by rfl)
  · obtain ⟨msg, h1, h2, h3, h4⟩ :=
      (C1_find_tab [⟨some ("1"), some ("Other"), none⟩] ("key")).2.2 (by decide)
    exact ⟨msg, h1, h2, h4 (by decide)⟩
